import Mathlib

set_option maxRecDepth 8192

/-!
Shallow embedding of the retrieval-augmentation core of the
`aws-rag-chatbot-platform` repository, together with theorems settling the
frozen claims about it.

Embedded source files:
* `backend/src/services/rag_service.py` (context assembly, history window,
  confidence, source citations)
* `backend/src/services/opensearch_service.py` (content-addressed indexing,
  update semantics, cold-start search self-heal)
* `backend/src/api/main.py` and `backend/src/models/chat_models.py`
  (chat endpoint `max_results` handling)

Modelling conventions: Python `float` values are modelled as exact rationals
(`ℚ`); Python dicts with optional keys are structures with `Option` fields and
`dict.get` defaults become `Option.getD`; the OpenSearch engine is external to
the repository, so its store is an explicit association list keyed by the
document id and its ranked full-text response is an abstract list of hits
carried in the state.
-/

/-! ## Python-style string helpers -/

/-- UTF-8 encoding of a single character, as the list of its byte values
(0–255).  Models Python's `str.encode()` applied character by character. -/
def utf8Char (c : Char) : List Nat :=
  let n := c.toNat
  if n < 128 then [n]
  else if n < 2048 then [192 + n / 64, 128 + n % 64]
  else if n < 65536 then [224 + n / 4096, 128 + (n / 64) % 64, 128 + n % 64]
  else [240 + n / 262144, 128 + (n / 4096) % 64, 128 + (n / 64) % 64, 128 + n % 64]

/-- UTF-8 encoding of a string as a byte list; models Python `s.encode()`. -/
def utf8Bytes (s : String) : List Nat :=
  (s.data.map utf8Char).flatten

/-- Python `s.capitalize()` restricted to ASCII case mapping: first character
upper-cased, every later character lower-cased. -/
def pyCapitalize (s : String) : String :=
  match s.data with
  | [] => ""
  | c :: cs => String.mk (Char.toUpper c :: cs.map Char.toLower)

/-- Python slice `l[-n:]` for `n > 0`: the last `n` elements (the whole list
when it is shorter than `n`); `Nat` truncated subtraction gives exactly the
Python behaviour. -/
def lastN {α : Type} (n : Nat) (l : List α) : List α :=
  l.drop (l.length - n)

/-- Python `pat in s` substring test on strings. -/
def containsSub (s pat : String) : Bool :=
  (List.range (s.data.length + 1)).any (fun i => pat.data.isPrefixOf (s.data.drop i))

/-! ## Python `round(x, 2)`

Python rounds half to even (banker's rounding); floats are modelled as exact
rationals, so the tie-breaking rule is stated on exact values. -/

/-- Round a rational to the nearest integer, ties to the even integer. -/
def roundHalfEven (q : ℚ) : ℤ :=
  if q - ⌊q⌋ < 1/2 then ⌊q⌋
  else if 1/2 < q - ⌊q⌋ then ⌊q⌋ + 1
  else if ⌊q⌋ % 2 = 0 then ⌊q⌋ else ⌊q⌋ + 1

/-- Python `round(x, 2)`: round to two decimal places. -/
def pyRound2 (q : ℚ) : ℚ :=
  (roundHalfEven (q * 100) : ℚ) / 100

theorem roundHalfEven_nonneg (q : ℚ) (hq : 0 ≤ q) : 0 ≤ roundHalfEven q := by
  unfold roundHalfEven
  have h0 : (0 : ℤ) ≤ ⌊q⌋ := Int.floor_nonneg.mpr hq
  split_ifs <;> omega

theorem roundHalfEven_le (q : ℚ) (n : ℤ) (hq : q ≤ n) : roundHalfEven q ≤ n := by
  have hq' : (⌊q⌋ : ℚ) ≤ (n : ℚ) := le_trans (Int.floor_le q) hq
  have hfl : ⌊q⌋ ≤ n := by exact_mod_cast hq'
  unfold roundHalfEven
  split_ifs with h1 h2 h3
  · exact hfl
  · have hh : (1 : ℚ)/2 ≤ q - ⌊q⌋ := le_of_not_lt h1
    have hlt : (⌊q⌋ : ℚ) < (n : ℚ) := by linarith
    have hlt' : ⌊q⌋ < n := by exact_mod_cast hlt
    omega
  · exact hfl
  · have hh : (1 : ℚ)/2 ≤ q - ⌊q⌋ := le_of_not_lt h1
    have hlt : (⌊q⌋ : ℚ) < (n : ℚ) := by linarith
    have hlt' : ⌊q⌋ < n := by exact_mod_cast hlt
    omega

theorem pyRound2_nonneg (q : ℚ) (h0 : 0 ≤ q) : 0 ≤ pyRound2 q := by
  unfold pyRound2
  have ha : 0 ≤ roundHalfEven (q * 100) :=
    roundHalfEven_nonneg _ (by positivity)
  have ha' : (0 : ℚ) ≤ (roundHalfEven (q * 100) : ℚ) := by exact_mod_cast ha
  linarith

theorem pyRound2_le_one (q : ℚ) (h1 : q ≤ 1) : pyRound2 q ≤ 1 := by
  unfold pyRound2
  have hb : roundHalfEven (q * 100) ≤ 100 := by
    apply roundHalfEven_le
    push_cast
    linarith
  have hb' : (roundHalfEven (q * 100) : ℚ) ≤ 100 := by exact_mod_cast hb
  linarith

/-! ## MD5 (`hashlib.md5(...).hexdigest()`)

Faithful implementation over byte lists, 32-bit words as `Nat` reduced
`% 2^32`. -/

namespace MD5

/-- `2^32`, the word modulus. -/
def M32 : Nat := 4294967296

/-- All-ones 32-bit mask, used to express bitwise complement via xor. -/
def mask32 : Nat := 4294967295

/-- The 64 sine-derived round constants of MD5. -/
def K : List Nat :=
  [0xd76aa478, 0xe8c7b756, 0x242070db, 0xc1bdceee,
   0xf57c0faf, 0x4787c62a, 0xa8304613, 0xfd469501,
   0x698098d8, 0x8b44f7af, 0xffff5bb1, 0x895cd7be,
   0x6b901122, 0xfd987193, 0xa679438e, 0x49b40821,
   0xf61e2562, 0xc040b340, 0x265e5a51, 0xe9b6c7aa,
   0xd62f105d, 0x02441453, 0xd8a1e681, 0xe7d3fbc8,
   0x21e1cde6, 0xc33707d6, 0xf4d50d87, 0x455a14ed,
   0xa9e3e905, 0xfcefa3f8, 0x676f02d9, 0x8d2a4c8a,
   0xfffa3942, 0x8771f681, 0x6d9d6122, 0xfde5380c,
   0xa4beea44, 0x4bdecfa9, 0xf6bb4b60, 0xbebfbc70,
   0x289b7ec6, 0xeaa127fa, 0xd4ef3085, 0x04881d05,
   0xd9d4d039, 0xe6db99e5, 0x1fa27cf8, 0xc4ac5665,
   0xf4292244, 0x432aff97, 0xab9423a7, 0xfc93a039,
   0x655b59c3, 0x8f0ccc92, 0xffeff47d, 0x85845dd1,
   0x6fa87e4f, 0xfe2ce6e0, 0xa3014314, 0x4e0811a1,
   0xf7537e82, 0xbd3af235, 0x2ad7d2bb, 0xeb86d391]

/-- The per-round left-rotation amounts. -/
def S : List Nat :=
  [7, 12, 17, 22, 7, 12, 17, 22, 7, 12, 17, 22, 7, 12, 17, 22,
   5, 9, 14, 20, 5, 9, 14, 20, 5, 9, 14, 20, 5, 9, 14, 20,
   4, 11, 16, 23, 4, 11, 16, 23, 4, 11, 16, 23, 4, 11, 16, 23,
   6, 10, 15, 21, 6, 10, 15, 21, 6, 10, 15, 21, 6, 10, 15, 21]

/-- 32-bit left rotation. -/
def rotl (x s : Nat) : Nat :=
  ((x <<< s) % M32) ||| ((x % M32) >>> (32 - s))

/-- Round function F. -/
def funF (b c d : Nat) : Nat := (b &&& c) ||| ((b ^^^ mask32) &&& d)

/-- Round function G. -/
def funG (b c d : Nat) : Nat := (b &&& d) ||| (c &&& (d ^^^ mask32))

/-- Round function H. -/
def funH (b c d : Nat) : Nat := b ^^^ c ^^^ d

/-- Round function I. -/
def funI (b c d : Nat) : Nat := c ^^^ (b ||| (d ^^^ mask32))

/-- One MD5 round on state `(a, b, c, d)` with message words `m`. -/
def step (m : List Nat) (st : Nat × Nat × Nat × Nat) (i : Nat) :
    Nat × Nat × Nat × Nat :=
  let (a, b, c, d) := st
  let fg : Nat × Nat :=
    if i < 16 then (funF b c d, i)
    else if i < 32 then (funG b c d, (5 * i + 1) % 16)
    else if i < 48 then (funH b c d, (3 * i + 5) % 16)
    else (funI b c d, (7 * i) % 16)
  let f2 := (fg.1 + a + K.getD i 0 + m.getD fg.2 0) % M32
  (d, (b + rotl f2 (S.getD i 0)) % M32, b, c)

/-- Process one 512-bit chunk, given as 16 little-endian words. -/
def processChunk (st : Nat × Nat × Nat × Nat) (m : List Nat) :
    Nat × Nat × Nat × Nat :=
  let r := (List.range 64).foldl (step m) st
  ((st.1 + r.1) % M32, (st.2.1 + r.2.1) % M32,
   (st.2.2.1 + r.2.2.1) % M32, (st.2.2.2 + r.2.2.2) % M32)

/-- Decode the `j`-th little-endian 32-bit word of a byte chunk. -/
def leWord (bytes : List Nat) (j : Nat) : Nat :=
  bytes.getD (4 * j) 0 + 256 * bytes.getD (4 * j + 1) 0 +
    65536 * bytes.getD (4 * j + 2) 0 + 16777216 * bytes.getD (4 * j + 3) 0

/-- A 64-byte chunk as its 16 little-endian words. -/
def chunkWords (chunk : List Nat) : List Nat :=
  (List.range 16).map (leWord chunk)

/-- MD5 padding: `0x80`, zeros to 56 mod 64, then the bit length as 8
little-endian bytes. -/
def pad (msg : List Nat) : List Nat :=
  let bitLen := (8 * msg.length) % (2 ^ 64)
  let zeros := (120 - ((msg.length + 1) % 64)) % 64
  msg ++ [128] ++ List.replicate zeros 0 ++
    (List.range 8).map (fun i => (bitLen >>> (8 * i)) % 256)

/-- The four 32-bit state words of the MD5 digest of a byte message. -/
def md5Words (msg : List Nat) : Nat × Nat × Nat × Nat :=
  let padded := pad msg
  let numChunks := padded.length / 64
  (List.range numChunks).foldl
    (fun st i => processChunk st (chunkWords ((padded.drop (64 * i)).take 64)))
    (0x67452301, 0xefcdab89, 0x98badcfe, 0x10325476)

/-- A 32-bit word as 4 little-endian bytes. -/
def le4 (x : Nat) : List Nat :=
  [x % 256, (x >>> 8) % 256, (x >>> 16) % 256, (x >>> 24) % 256]

/-- Lower-case hexadecimal digit. -/
def hexChar (n : Nat) : Char :=
  "0123456789abcdef".data.getD n '0'

/-- Byte list rendered as a lower-case hex string. -/
def bytesToHex (bs : List Nat) : String :=
  String.mk ((bs.map (fun b => [hexChar (b / 16), hexChar (b % 16)])).flatten)

/-- The 16 digest bytes of a byte message. -/
def digest (msg : List Nat) : List Nat :=
  let w := md5Words msg
  le4 w.1 ++ le4 w.2.1 ++ le4 w.2.2.1 ++ le4 w.2.2.2

end MD5

/-- Python `hashlib.md5(s.encode()).hexdigest()`. -/
def md5Hex (s : String) : String :=
  MD5.bytesToHex (MD5.digest (utf8Bytes s))

/-! ## `rag_service.py` — context assembly, history, confidence, citations -/

/-- Open key-value metadata bag (values abstracted to strings). -/
abbrev Meta := List (String × String)

/-- A Python dict as passed around `RAGService`: every key may be absent,
and `dict.get` defaults are applied at each use site. -/
structure PyDoc where
  title : Option String
  content : Option String
  score : Option ℚ
  metadata : Option Meta
deriving DecidableEq

/-- A chat-history message dict with keys `role` and `content`. -/
structure Turn where
  role : Option String
  content : Option String
deriving DecidableEq

/-- `RAGService._prepare_context`: one `Documento:`/`Contenido:`/`---` block
per document, accumulated in a loop and joined with newlines. -/
def prepareContext (documents : List PyDoc) : String :=
  let context_parts := documents.foldl
    (fun parts doc =>
      parts ++ ["Documento: " ++ doc.title.getD "Sin título",
                "Contenido: " ++ doc.content.getD "", "---"])
    []
  String.intercalate "\n" context_parts

/-- `RAGService._prepare_chat_history`: empty history gives the empty string;
otherwise the last 5 messages (`chat_history[-5:]`) rendered as
`<Role capitalized>: <content>` and joined with newlines. -/
def prepareChatHistory (chat_history : List Turn) : String :=
  if chat_history = [] then ""
  else
    let history_parts := (lastN 5 chat_history).foldl
      (fun parts msg =>
        parts ++ [pyCapitalize (msg.role.getD "") ++ ": " ++ msg.content.getD ""])
      []
    String.intercalate "\n" history_parts

/-- `RAGService._calculate_confidence`: 0 on the empty list, otherwise the mean
score (missing scores default to 0), clamped at 1 and rounded to 2 decimals. -/
def calcConfidence (documents : List PyDoc) : ℚ :=
  if documents = [] then 0
  else
    let total_score := (documents.map (fun doc => doc.score.getD 0)).sum
    let avg_score := total_score / (documents.length : ℚ)
    let confidence := min avg_score 1
    pyRound2 confidence

/-- One entry of the source-citation list built by
`RAGService._prepare_sources`. -/
structure SourceCitation where
  title : String
  content_preview : String
  score : ℚ
  metadata : Meta
deriving DecidableEq

/-- The citation dict `_prepare_sources` builds for one document. -/
def mkSource (doc : PyDoc) : SourceCitation :=
  { title := doc.title.getD "Sin título",
    content_preview :=
      if 200 < (doc.content.getD "").length
      then (doc.content.getD "").take 200 ++ "..."
      else doc.content.getD "",
    score := doc.score.getD 0,
    metadata := doc.metadata.getD [] }

/-- `RAGService._prepare_sources`: the citation list accumulated in a loop. -/
def prepareSources (documents : List PyDoc) : List SourceCitation :=
  documents.foldl (fun sources doc => sources ++ [mkSource doc]) []

/-! Loop-accumulator lemmas: the `foldl`-with-append loops of `rag_service`
compute `map`/`flatten` closed forms, which make the order of traversal
explicit. -/

theorem foldl_append_blocks {α β : Type} (f : α → List β) :
    ∀ (l : List α) (acc : List β),
      l.foldl (fun parts x => parts ++ f x) acc = acc ++ (l.map f).flatten := by
  intro l
  induction l with
  | nil => intro acc; simp
  | cons x xs ih =>
      intro acc
      simp [ih, List.append_assoc]

theorem foldl_append_one {α β : Type} (g : α → β) :
    ∀ (l : List α) (acc : List β),
      l.foldl (fun parts x => parts ++ [g x]) acc = acc ++ l.map g := by
  intro l
  induction l with
  | nil => intro acc; simp
  | cons x xs ih =>
      intro acc
      simp [ih, List.append_assoc]

/-! ## `opensearch_service.py` — document store, indexing, update, search

The OpenSearch engine itself is external to the repository; its per-id
document store is modelled as an association list (the engine keeps exactly
one document per id: `client.index` with an explicit id creates or fully
replaces, `client.update` with a `doc` body merges fields into the existing
document).  The Bedrock embedding model is likewise external and is passed in
as a function `embedF`. -/

/-- A record as stored under an id in the `chatbot-documents` index. -/
structure StoredDoc where
  title : String
  content : String
  embedding : List ℚ
  metadata : Meta
  created_at : String
  updated_at : String
deriving DecidableEq

/-- The engine's document store: id-keyed association list. -/
abbrev Store := List (String × StoredDoc)

/-- Engine-side lookup of the document stored under an id. -/
def findDoc? (store : Store) (id : String) : Option StoredDoc :=
  match store with
  | [] => none
  | (k, v) :: rest => if k = id then some v else findDoc? rest id

/-- Replace the document stored under an id, keeping every key in place. -/
def replaceDoc (store : Store) (id : String) (v : StoredDoc) : Store :=
  store.map (fun kv => if kv.1 = id then (id, v) else kv)

/-- `client.index(index, id, body)`: create the record or fully replace the
one already stored under the id. -/
def upsertDoc (store : Store) (id : String) (v : StoredDoc) : Store :=
  if (findDoc? store id).isSome then replaceDoc store id v
  else store ++ [(id, v)]

/-- Number of records stored under an id. -/
def countId (store : Store) (id : String) : Nat :=
  (store.filter (fun kv => kv.1 = id)).length

/-- Well-formedness the engine maintains: one record per id. -/
def wfStore (store : Store) : Prop :=
  (store.map Prod.fst).Nodup

instance (store : Store) : Decidable (wfStore store) := by
  unfold wfStore; infer_instance

/-- `OpenSearchService._index_document_sync`: the document id as computed by
`hashlib.md5(f"{title}{content}".encode()).hexdigest()`. -/
def docId (title content : String) : String :=
  md5Hex (title ++ content)

/-- `OpenSearchService._index_document_sync`: compute the content-addressed
id, embed the content, and write the full document body (both timestamps set
to the write time `now`).  Returns the new store and the id reported back in
the engine response. -/
def indexDocumentSync (embedF : String → List ℚ) (store : Store)
    (title content : String) (metadata : Meta) (now : String) :
    Store × String :=
  let doc_id := docId title content
  let embedding := embedF content
  let doc_body : StoredDoc :=
    { title := title, content := content, embedding := embedding,
      metadata := metadata, created_at := now, updated_at := now }
  (upsertDoc store doc_id doc_body, doc_id)

/-- `OpenSearchService.update_document`: partial update via `client.update`.
The `doc` body always carries `updated_at`; `title`, `content` (plus a freshly
computed embedding) and `metadata` are added only when truthy in Python
(`None`, `""` and `{}` are all falsy), and the engine merges the body into the
stored record.  Missing ids surface as an error. -/
def updateDocument (embedF : String → List ℚ) (store : Store)
    (document_id : String) (title content : Option String)
    (metadata : Option Meta) (now : String) : Except String Store :=
  match findDoc? store document_id with
  | none => .error "Error updating document: document_missing_exception"
  | some r =>
      let r1 := { r with updated_at := now }
      let r2 := match title with
        | some t => if t ≠ "" then { r1 with title := t } else r1
        | none => r1
      let r3 := match content with
        | some c => if c ≠ "" then { r2 with content := c, embedding := embedF c } else r2
        | none => r2
      let r4 := match metadata with
        | some m => if m ≠ [] then { r3 with metadata := m } else r3
        | none => r3
      .ok (replaceDoc store document_id r4)

/-- A ranked hit as the engine returns it for a full-text query.  The BM25
scoring itself happens inside the external engine, so the hit list is carried
in the service state as an abstract input. -/
structure Hit where
  id : String
  title : String
  content : String
  metadata : Meta
  score : ℚ
  created_at : String
deriving DecidableEq

/-- State of the OpenSearch service's backing engine as seen by
`search_documents`: whether the `chatbot-documents` index exists, its
documents, and the engine's ranked response for the query at hand. -/
structure OSState where
  indexExists : Bool
  docs : Store
  engineHits : List Hit
deriving DecidableEq

/-- One result dict of `search_documents`, built from a hit's `_id`,
`_source` fields and `_score`. -/
structure SearchResultDoc where
  id : String
  title : String
  content : String
  metadata : Meta
  score : ℚ
  created_at : String
deriving DecidableEq

/-- `client.search` against the engine: a missing index surfaces as an
`index_not_found_exception` error message, otherwise the engine's ranked hits
(capped at `size`) come back. -/
def clientSearch (st : OSState) (size : Int) : Except String (List Hit) :=
  if st.indexExists then .ok (st.engineHits.take size.toNat)
  else .error "NotFoundError(404): index_not_found_exception"

/-- `OpenSearchService._create_index_if_not_exists`: no-op when the index is
already there, otherwise create the schema.  The method swallows its own
errors, so it never fails its caller. -/
def createIndexIfNotExists (st : OSState) : OSState :=
  if st.indexExists then st else { st with indexExists := true }

/-- `OpenSearchService.search_documents`: run the query, turn hits into result
dicts; on an error whose message contains `index_not_found_exception`, create
the index and return the empty list; other errors are re-raised wrapped. -/
def searchDocuments (st : OSState) (_query : String) (max_results : Int) :
    OSState × Except String (List SearchResultDoc) :=
  match clientSearch st max_results with
  | .ok hits =>
      (st, .ok (hits.map (fun hit =>
        { id := hit.id, title := hit.title, content := hit.content,
          metadata := hit.metadata, score := hit.score,
          created_at := hit.created_at })))
  | .error e =>
      if containsSub e "index_not_found_exception" then
        (createIndexIfNotExists st, .ok [])
      else
        (st, .error ("Error searching documents: " ++ e))

/-! ## `chat_models.py` / `main.py` — the chat endpoint's search limit -/

/-- `ChatRequest` from `chat_models.py`; optional fields may be null. -/
structure ChatRequest where
  message : String
  chat_history : Option (List Turn)
  max_results : Option Int
  user_id : Option String
deriving DecidableEq

/-- The result limit the `/chat` endpoint passes to `search_documents`:
`request.max_results or 5` — Python `or` substitutes 5 exactly when
`max_results` is falsy, i.e. `None` or `0`. -/
def chatSearchLimit (request : ChatRequest) : Int :=
  match request.max_results with
  | none => 5
  | some v => if v = 0 then 5 else v

/-! ## Store lemmas -/

theorem findDoc?_nil (id : String) : findDoc? [] id = none := rfl

theorem findDoc?_cons (k : String) (v : StoredDoc) (rest : Store) (id : String) :
    findDoc? ((k, v) :: rest) id = if k = id then some v else findDoc? rest id := rfl

theorem replaceDoc_cons (k : String) (w : StoredDoc) (rest : Store)
    (id : String) (v : StoredDoc) :
    replaceDoc ((k, w) :: rest) id v
      = (if k = id then (id, v) else (k, w)) :: replaceDoc rest id v := rfl

theorem findDoc?_append (store l : Store) (id : String)
    (h : findDoc? store id = none) :
    findDoc? (store ++ l) id = findDoc? l id := by
  induction store with
  | nil => simp
  | cons kv rest ih =>
      obtain ⟨k, v⟩ := kv
      rw [findDoc?_cons] at h
      by_cases hk : k = id
      · rw [if_pos hk] at h
        exact Option.noConfusion h
      · rw [if_neg hk] at h
        rw [List.cons_append, findDoc?_cons, if_neg hk]
        exact ih h

theorem findDoc?_replaceDoc (store : Store) (id : String) (v : StoredDoc)
    (h : (findDoc? store id).isSome) :
    findDoc? (replaceDoc store id v) id = some v := by
  induction store with
  | nil => simp [findDoc?_nil] at h
  | cons kv rest ih =>
      obtain ⟨k, w⟩ := kv
      rw [findDoc?_cons] at h
      rw [replaceDoc_cons]
      by_cases hk : k = id
      · rw [if_pos hk, findDoc?_cons, if_pos rfl]
      · rw [if_neg hk] at h
        rw [if_neg hk, findDoc?_cons, if_neg hk]
        exact ih h

theorem findDoc?_upsertDoc (store : Store) (id : String) (v : StoredDoc) :
    findDoc? (upsertDoc store id v) id = some v := by
  cases heq : findDoc? store id with
  | none =>
      rw [upsertDoc, heq]
      simp only [Option.isSome_none, Bool.false_eq_true, if_false]
      rw [findDoc?_append store [(id, v)] id heq, findDoc?_cons, if_pos rfl]
  | some r =>
      rw [upsertDoc, heq]
      simp only [Option.isSome_some, if_true]
      exact findDoc?_replaceDoc store id v (by rw [heq]; rfl)

theorem findDoc?_eq_none_iff (store : Store) (id : String) :
    findDoc? store id = none ↔ id ∉ store.map Prod.fst := by
  induction store with
  | nil => simp [findDoc?_nil]
  | cons kv rest ih =>
      obtain ⟨k, v⟩ := kv
      rw [findDoc?_cons]
      by_cases hk : k = id
      · subst hk
        simp
      · rw [if_neg hk]
        simp only [List.map_cons, List.mem_cons, not_or]
        constructor
        · intro hnone
          exact ⟨fun h => hk h.symm, ih.mp hnone⟩
        · intro hand
          exact ih.mpr hand.2

theorem countId_cons (k : String) (v : StoredDoc) (rest : Store) (id : String) :
    countId ((k, v) :: rest) id
      = countId rest id + (if k = id then 1 else 0) := by
  by_cases hk : k = id <;> simp [countId, List.filter_cons, hk]

theorem countId_eq_zero_iff (store : Store) (id : String) :
    countId store id = 0 ↔ id ∉ store.map Prod.fst := by
  induction store with
  | nil => simp [countId]
  | cons kv rest ih =>
      obtain ⟨k, v⟩ := kv
      rw [countId_cons]
      by_cases hk : k = id
      · subst hk
        simp
      · rw [if_neg hk]
        simp only [List.map_cons, List.mem_cons, not_or, Nat.add_zero]
        constructor
        · intro h0
          exact ⟨fun h => hk h.symm, ih.mp h0⟩
        · intro hand
          exact ih.mpr hand.2

theorem countId_append (store l : Store) (id : String) :
    countId (store ++ l) id = countId store id + countId l id := by
  simp [countId, List.filter_append]

theorem countId_replaceDoc (store : Store) (id : String) (v : StoredDoc) :
    countId (replaceDoc store id v) id = countId store id := by
  induction store with
  | nil => rfl
  | cons kv rest ih =>
      obtain ⟨k, w⟩ := kv
      rw [replaceDoc_cons]
      by_cases hk : k = id
      · rw [if_pos hk]
        rw [countId_cons, countId_cons, ih, if_pos rfl, if_pos hk]
      · rw [if_neg hk]
        rw [countId_cons, countId_cons, ih]

theorem countId_le_one_of_wf (store : Store) (id : String) (h : wfStore store) :
    countId store id ≤ 1 := by
  induction store with
  | nil => simp [countId]
  | cons kv rest ih =>
      obtain ⟨k, v⟩ := kv
      rw [wfStore, List.map_cons, List.nodup_cons] at h
      obtain ⟨hk, hrest⟩ := h
      rw [countId_cons]
      by_cases hki : k = id
      · have h0 : countId rest id = 0 :=
          (countId_eq_zero_iff rest id).mpr (hki ▸ hk)
        simp [hki, h0]
      · have := ih hrest
        rw [if_neg hki]
        omega

theorem keys_replaceDoc (store : Store) (id : String) (v : StoredDoc) :
    (replaceDoc store id v).map Prod.fst = store.map Prod.fst := by
  induction store with
  | nil => rfl
  | cons kv rest ih =>
      obtain ⟨k, w⟩ := kv
      rw [replaceDoc_cons]
      by_cases hk : k = id
      · subst hk
        rw [if_pos rfl, List.map_cons, List.map_cons, ih]
      · rw [if_neg hk, List.map_cons, List.map_cons, ih]

theorem countId_upsertDoc (store : Store) (id : String) (v : StoredDoc)
    (h : wfStore store) :
    countId (upsertDoc store id v) id = 1 := by
  cases heq : findDoc? store id with
  | none =>
      rw [upsertDoc, heq]
      simp only [Option.isSome_none, Bool.false_eq_true, if_false]
      rw [countId_append]
      have h0 : countId store id = 0 :=
        (countId_eq_zero_iff store id).mpr ((findDoc?_eq_none_iff store id).mp heq)
      rw [h0, countId_cons]
      simp [countId]
  | some r =>
      rw [upsertDoc, heq]
      simp only [Option.isSome_some, if_true]
      rw [countId_replaceDoc]
      have hpos : countId store id ≠ 0 := by
        intro h0
        have hmem := (countId_eq_zero_iff store id).mp h0
        rw [← findDoc?_eq_none_iff store id] at hmem
        rw [heq] at hmem
        exact Option.noConfusion hmem
      have hle := countId_le_one_of_wf store id h
      omega

theorem wfStore_upsertDoc (store : Store) (id : String) (v : StoredDoc)
    (h : wfStore store) :
    wfStore (upsertDoc store id v) := by
  cases heq : findDoc? store id with
  | none =>
      rw [upsertDoc, heq]
      simp only [Option.isSome_none, Bool.false_eq_true, if_false]
      have hnm : id ∉ store.map Prod.fst := (findDoc?_eq_none_iff store id).mp heq
      rw [wfStore, List.map_append, List.nodup_append]
      refine ⟨h, by simp, ?_⟩
      intro a ha hb
      simp only [List.map_cons, List.map_nil, List.mem_singleton] at hb
      exact hnm (hb ▸ ha)
  | some r =>
      rw [upsertDoc, heq]
      simp only [Option.isSome_some, if_true]
      rw [wfStore, keys_replaceDoc]
      exact h

/-! ## Witness fixtures -/

/-- Concrete stand-in embedding provider used in witnesses. -/
def embedEx : String → List ℚ := fun s => [(s.length : ℚ)]

/-- Concrete candidate list used in the confidence witness. -/
def confDocs : List PyDoc :=
  [{ title := some "A", content := some "doc one", score := some 1, metadata := none },
   { title := none, content := none, score := some 0, metadata := none }]

/-- A concrete stored record used in the update witness. -/
def r0 : StoredDoc :=
  { title := "a", content := "b", embedding := [2], metadata := [],
    created_at := "C0", updated_at := "U0" }

/-- A 250-character content string. -/
def c250 : String := String.mk (List.replicate 250 'a')

/-- A 150-character content string. -/
def c150 : String := String.mk (List.replicate 150 'b')

/-- An 8-turn conversation history. -/
def hist8 : List Turn :=
  [⟨some "user", some "m1"⟩, ⟨some "assistant", some "m2"⟩,
   ⟨some "user", some "m3"⟩, ⟨some "assistant", some "m4"⟩,
   ⟨some "user", some "m5"⟩, ⟨some "assistant", some "m6"⟩,
   ⟨some "user", some "m7"⟩, ⟨some "assistant", some "m8"⟩]

/-! ## Claim theorems -/

/-- C1: the orchestrator's confidence is exactly 0 on an empty candidate
list; on a non-empty list it equals `min(mean score, 1.0)` rounded to two
decimal places, and — for candidate scores as the search engine produces
them, i.e. nonnegative — it lies in `[0, 1]`. -/
theorem calcConfidence_spec (documents : List PyDoc) :
    (documents = [] → calcConfidence documents = 0) ∧
    (documents ≠ [] →
      calcConfidence documents =
        pyRound2 (min ((documents.map (fun doc => doc.score.getD 0)).sum
          / (documents.length : ℚ)) 1)) ∧
    (documents ≠ [] → (∀ doc ∈ documents, 0 ≤ doc.score.getD 0) →
      0 ≤ calcConfidence documents ∧ calcConfidence documents ≤ 1) := by
  refine ⟨fun he => by simp [calcConfidence, he],
          fun hne => by simp [calcConfidence, hne],
          fun hne hpos => ?_⟩
  have hcal : calcConfidence documents =
      pyRound2 (min ((documents.map (fun doc => doc.score.getD 0)).sum
        / (documents.length : ℚ)) 1) := by
    simp [calcConfidence, hne]
  have hlen : (0 : ℚ) < (documents.length : ℚ) := by
    have hl := List.length_pos.mpr hne
    exact_mod_cast hl
  have hsum : 0 ≤ (documents.map (fun doc => doc.score.getD 0)).sum := by
    apply List.sum_nonneg
    intro x hx
    rw [List.mem_map] at hx
    obtain ⟨d, hd, rfl⟩ := hx
    exact hpos d hd
  have havg : 0 ≤ (documents.map (fun doc => doc.score.getD 0)).sum
      / (documents.length : ℚ) := div_nonneg hsum (le_of_lt hlen)
  rw [hcal]
  exact ⟨pyRound2_nonneg _ (le_min havg zero_le_one),
         pyRound2_le_one _ (min_le_right _ _)⟩

/-- Witness for C1 at a concrete two-candidate list with scores 1 and 0. -/
theorem calcConfidence_spec_witness :
    confDocs ≠ [] ∧ 0 ≤ calcConfidence confDocs ∧ calcConfidence confDocs ≤ 1 :=
  ⟨by decide,
   ((calcConfidence_spec confDocs).2.2 (by decide) (by decide)).1,
   ((calcConfidence_spec confDocs).2.2 (by decide) (by decide)).2⟩

/-- C2: the id returned by indexing is `docId title content`, a pure function
of `(title, content)` only — the same on any store, metadata and write time —
and indexing the same pair twice leaves exactly one record under that id,
holding the second write's body. -/
theorem indexDocument_idempotent (embedF : String → List ℚ) (store : Store)
    (title content : String) (m1 m2 : Meta) (t1 t2 : String)
    (hwf : wfStore store) :
    (indexDocumentSync embedF store title content m1 t1).2 = docId title content ∧
    (indexDocumentSync embedF (indexDocumentSync embedF store title content m1 t1).1
        title content m2 t2).2 = docId title content ∧
    countId (indexDocumentSync embedF (indexDocumentSync embedF store title content m1 t1).1
        title content m2 t2).1 (docId title content) = 1 ∧
    findDoc? (indexDocumentSync embedF (indexDocumentSync embedF store title content m1 t1).1
        title content m2 t2).1 (docId title content)
      = some { title := title, content := content, embedding := embedF content,
               metadata := m2, created_at := t2, updated_at := t2 } := by
  refine ⟨rfl, rfl, ?_, ?_⟩
  · exact countId_upsertDoc _ (docId title content) _
      (wfStore_upsertDoc store (docId title content) _ hwf)
  · exact findDoc?_upsertDoc _ (docId title content) _

/-- Witness for C2: double-indexing `("t", "c")` into the empty store leaves
one record. -/
theorem indexDocument_idempotent_witness :
    countId (indexDocumentSync embedEx (indexDocumentSync embedEx [] "t" "c" [] "T0").1
        "t" "c" [("k", "v")] "T1").1 (docId "t" "c") = 1 :=
  (indexDocument_idempotent embedEx [] "t" "c" [] [("k", "v")] "T0" "T1" (by decide)).2.2.1

/-- C3: searching while the backing index does not exist creates the schema
and returns the empty result list instead of an error. -/
theorem searchDocuments_selfheal (st : OSState) (q : String) (n : Int)
    (h : st.indexExists = false) :
    searchDocuments st q n = ({ st with indexExists := true }, .ok []) := by
  have hc : containsSub "NotFoundError(404): index_not_found_exception"
      "index_not_found_exception" = true := by decide
  simp [searchDocuments, clientSearch, createIndexIfNotExists, h, hc]

/-- Witness for C3 at a concrete cold-start state. -/
theorem searchDocuments_selfheal_witness :
    searchDocuments { indexExists := false, docs := [], engineHits := [] } "query" 10
      = ({ indexExists := true, docs := [], engineHits := [] }, .ok []) :=
  searchDocuments_selfheal _ "query" 10 rfl

/-- Rendering of the candidate context as the spec words it, with English
`Document:`/`Content:` labels — a refinement-comparison definition written
from the spec's text, to be diffed against the embedded source. -/
def specPrepareContext (documents : List PyDoc) : String :=
  String.intercalate "\n"
    ((documents.map (fun doc =>
      ["Document: " ++ doc.title.getD "Sin título",
       "Content: " ++ doc.content.getD "", "---"])).flatten)

/-- C4 counterexample: the code renders Spanish `Documento:`/`Contenido:`
labels, not the `Document:`/`Content:` blocks the claim states. -/
theorem prepareContext_labels_counterexample :
    prepareContext [{ title := some "T", content := some "C", score := none, metadata := none }]
      = "Documento: T\nContenido: C\n---" ∧
    prepareContext [{ title := some "T", content := some "C", score := none, metadata := none }]
      ≠ specPrepareContext
          [{ title := some "T", content := some "C", score := none, metadata := none }] := by
  constructor
  · decide
  · decide

/-- C4 (amended): the prompt builder renders each candidate as a
`Documento: <title>` / `Contenido: <content>` / `---` block (Spanish labels)
and concatenates the blocks in exactly the order received; the output is
invariant under any reassignment of scores, so it never re-sorts by score. -/
theorem prepareContext_order (documents : List PyDoc) :
    prepareContext documents
      = String.intercalate "\n"
          ((documents.map (fun doc =>
            ["Documento: " ++ doc.title.getD "Sin título",
             "Contenido: " ++ doc.content.getD "", "---"])).flatten) ∧
    ∀ f : PyDoc → Option ℚ,
      prepareContext (documents.map (fun doc => { doc with score := f doc }))
        = prepareContext documents := by
  constructor
  · unfold prepareContext
    rw [foldl_append_blocks, List.nil_append]
  · intro f
    unfold prepareContext
    rw [foldl_append_blocks, foldl_append_blocks, List.nil_append, List.nil_append,
        List.map_map]
    have hcomp : ((fun doc : PyDoc =>
          ["Documento: " ++ doc.title.getD "Sin título",
           "Contenido: " ++ doc.content.getD "", "---"])
        ∘ (fun doc => { doc with score := f doc }))
        = (fun doc : PyDoc =>
          ["Documento: " ++ doc.title.getD "Sin título",
           "Contenido: " ++ doc.content.getD "", "---"]) := by
      funext doc
      rfl
    rw [hcomp]

/-- C5: the history block is the last five turns (`chat_history[-5:]`, older
turns dropped) rendered as `<Role capitalized>: <content>` joined by
newlines, and an empty history yields the empty block. -/
theorem prepareChatHistory_spec (chat_history : List Turn) :
    prepareChatHistory chat_history
      = String.intercalate "\n"
          ((chat_history.drop (chat_history.length - 5)).map
            (fun msg => pyCapitalize (msg.role.getD "") ++ ": " ++ msg.content.getD "")) ∧
    (lastN 5 chat_history).length = min 5 chat_history.length ∧
    (chat_history = [] → prepareChatHistory chat_history = "") := by
  refine ⟨?_, ?_, fun he => by rw [prepareChatHistory, if_pos he]⟩
  · by_cases he : chat_history = []
    · subst he
      rfl
    · rw [prepareChatHistory, if_neg he]
      rw [foldl_append_one, List.nil_append]
      rfl
  · rw [lastN, List.length_drop]
    omega

/-- Witness for C5: empty history gives the empty block, and an 8-turn
history renders exactly its last 5 turns. -/
theorem prepareChatHistory_spec_witness :
    prepareChatHistory [] = "" ∧
    prepareChatHistory hist8
      = "Assistant: m4\nUser: m5\nAssistant: m6\nUser: m7\nAssistant: m8" :=
  ⟨(prepareChatHistory_spec []).2.2 rfl, by decide⟩

/-- C6: the source citation's `content_preview` is the first 200 characters
plus `"..."` when the content is longer than 200 characters, and the full
content unchanged otherwise; the citation list is the candidates mapped in
order. -/
theorem prepareSources_preview (documents : List PyDoc) (doc : PyDoc) :
    prepareSources documents = documents.map mkSource ∧
    (200 < (doc.content.getD "").length →
      (mkSource doc).content_preview = (doc.content.getD "").take 200 ++ "...") ∧
    ((doc.content.getD "").length ≤ 200 →
      (mkSource doc).content_preview = doc.content.getD "") := by
  refine ⟨?_, fun hlong => ?_, fun hshort => ?_⟩
  · unfold prepareSources
    rw [foldl_append_one, List.nil_append]
  · simp only [mkSource]
    rw [if_pos hlong]
  · simp only [mkSource]
    rw [if_neg (not_lt.mpr hshort)]

/-- Witness for C6 at 250- and 150-character contents. -/
theorem prepareSources_preview_witness :
    (200 < c250.length ∧
      (mkSource { title := none, content := some c250, score := none, metadata := none }).content_preview
        = c250.take 200 ++ "...") ∧
    (c150.length ≤ 200 ∧
      (mkSource { title := none, content := some c150, score := none, metadata := none }).content_preview
        = c150) :=
  ⟨⟨by decide,
    (prepareSources_preview []
      { title := none, content := some c250, score := none, metadata := none }).2.1
      (by decide)⟩,
   ⟨by decide,
    (prepareSources_preview []
      { title := none, content := some c150, score := none, metadata := none }).2.2
      (by decide)⟩⟩

/-- C7 counterexample: a negative `max_results` is truthy in Python, so
`request.max_results or 5` passes it through unchanged instead of falling
back to the default 5. -/
theorem chatSearchLimit_counterexample :
    chatSearchLimit { message := "q", chat_history := none, max_results := some (-3), user_id := none } = -3 ∧
    (-3 : Int) ≠ 5 := by
  constructor
  · decide
  · decide

/-- C7 (amended): a `max_results` of `None` or `0` falls back to the default
of 5 (the search is executed with limit 5); any other value — negative values
included — is passed through to the search unchanged. -/
theorem chatSearchLimit_spec (request : ChatRequest) :
    (request.max_results = none → chatSearchLimit request = 5) ∧
    (request.max_results = some 0 → chatSearchLimit request = 5) ∧
    (∀ v : Int, request.max_results = some v → v ≠ 0 →
      chatSearchLimit request = v) := by
  refine ⟨fun hn => ?_, fun h0 => ?_, fun v hv hvne => ?_⟩
  · rw [chatSearchLimit, hn]
  · rw [chatSearchLimit, h0]
    rfl
  · rw [chatSearchLimit, hv]
    simp [hvne]

/-- Witness for C7 (amended) at `max_results = -3`. -/
theorem chatSearchLimit_spec_witness :
    chatSearchLimit { message := "q", chat_history := none, max_results := some (-3), user_id := none } = -3 :=
  (chatSearchLimit_spec _).2.2 (-3) rfl (by decide)

/-- C8: on an existing record, a metadata-only update keeps the stored
embedding (and title, content) and only refreshes `updated_at` and
`metadata`; a content update stores the new content with a freshly computed
embedding; every update leaves the store's keys — in particular the record's
id — unchanged and sets `updated_at` to the update time. -/
theorem updateDocument_spec (embedF : String → List ℚ) (store : Store)
    (id : String) (r : StoredDoc) (now : String)
    (hfind : findDoc? store id = some r) :
    (∀ m : Meta, m ≠ [] →
      updateDocument embedF store id none none (some m) now
        = .ok (replaceDoc store id { r with updated_at := now, metadata := m })) ∧
    (∀ c : String, c ≠ "" →
      updateDocument embedF store id none (some c) none now
        = .ok (replaceDoc store id
            { r with updated_at := now, content := c, embedding := embedF c })) ∧
    (∀ v : StoredDoc, (replaceDoc store id v).map Prod.fst = store.map Prod.fst) ∧
    (∀ (ot oc : Option String) (om : Option Meta), ∃ store2,
      updateDocument embedF store id ot oc om now = .ok store2 ∧
      (findDoc? store2 id).map (fun d => d.updated_at) = some now) := by
  refine ⟨fun m hm => ?_, fun c hc => ?_, fun v => keys_replaceDoc store id v,
         fun ot oc om => ?_⟩
  · rw [updateDocument, hfind]
    simp only [if_pos hm]
  · rw [updateDocument, hfind]
    simp only [if_pos hc]
  · rw [updateDocument, hfind]
    refine ⟨_, rfl, ?_⟩
    rw [findDoc?_replaceDoc store id _ (by rw [hfind]; rfl)]
    rcases ot with _ | t <;> rcases oc with _ | c <;> rcases om with _ | m <;>
      simp only [Option.map_some'] <;> split_ifs <;> rfl

/-- Witness for C8 on a one-record store. -/
theorem updateDocument_spec_witness :
    updateDocument embedEx [("i", r0)] "i" none none (some [("k", "v")]) "T1"
      = .ok (replaceDoc [("i", r0)] "i" { r0 with updated_at := "T1", metadata := [("k", "v")] }) ∧
    updateDocument embedEx [("i", r0)] "i" none (some "new") none "T1"
      = .ok (replaceDoc [("i", r0)] "i"
          { r0 with updated_at := "T1", content := "new", embedding := embedEx "new" }) :=
  ⟨(updateDocument_spec embedEx [("i", r0)] "i" r0 "T1" rfl).1 [("k", "v")] (by decide),
   (updateDocument_spec embedEx [("i", r0)] "i" r0 "T1" rfl).2.1 "new" (by decide)⟩

/-- C9 counterexample: re-indexing the pair `("t", "c")` at time `T1` over a
record first written at time `T0` leaves a record whose `created_at` is `T1`,
not the original `T0` — the original `created_at` is not preserved. -/
theorem indexDocument_created_at_counterexample :
    (findDoc? (indexDocumentSync embedEx
        (indexDocumentSync embedEx [] "t" "c" [] "T0").1 "t" "c" [] "T1").1
        (docId "t" "c")).map (fun r => r.created_at) = some "T1" ∧
    ("T1" : String) ≠ "T0" := by
  constructor
  · show (findDoc? (upsertDoc (indexDocumentSync embedEx [] "t" "c" [] "T0").1
        (docId "t" "c")
        { title := "t", content := "c", embedding := embedEx "c", metadata := [],
          created_at := "T1", updated_at := "T1" }) (docId "t" "c")).map
        (fun r => r.created_at) = some "T1"
    rw [findDoc?_upsertDoc]
    rfl
  · decide

/-- C9 (amended): every index write — first write or overwrite of an existing
`(title, content)` record — stores the body with both `updated_at` and
`created_at` set to the write time; `created_at` is not preserved across
re-indexing. -/
theorem indexDocument_timestamps (embedF : String → List ℚ) (store : Store)
    (title content : String) (metadata : Meta) (now : String) :
    (indexDocumentSync embedF store title content metadata now).2
      = docId title content ∧
    findDoc? (indexDocumentSync embedF store title content metadata now).1
        (docId title content)
      = some { title := title, content := content, embedding := embedF content,
               metadata := metadata, created_at := now, updated_at := now } := by
  exact ⟨rfl, findDoc?_upsertDoc store (docId title content) _⟩

/-- C10: the document id hashes the bare concatenation `title ++ content`, so
any two pairs with equal concatenations — such as `("ab", "c")` and
`("a", "bc")` — get the same id, and indexing both leaves a single record
holding the second pair's data: the second write silently overwrites the
first. -/
theorem docId_concat_collision (t1 c1 t2 c2 : String)
    (h : t1 ++ c1 = t2 ++ c2)
    (embedF : String → List ℚ) (store : Store) (hwf : wfStore store)
    (m1 m2 : Meta) (ts1 ts2 : String) :
    docId t1 c1 = docId t2 c2 ∧
    countId (indexDocumentSync embedF (indexDocumentSync embedF store t1 c1 m1 ts1).1
        t2 c2 m2 ts2).1 (docId t1 c1) = 1 ∧
    findDoc? (indexDocumentSync embedF (indexDocumentSync embedF store t1 c1 m1 ts1).1
        t2 c2 m2 ts2).1 (docId t1 c1)
      = some { title := t2, content := c2, embedding := embedF c2,
               metadata := m2, created_at := ts2, updated_at := ts2 } := by
  have hid : docId t1 c1 = docId t2 c2 := by
    unfold docId
    rw [h]
  refine ⟨hid, ?_, ?_⟩
  · rw [hid]
    exact countId_upsertDoc _ (docId t2 c2) _
      (wfStore_upsertDoc store (docId t1 c1) _ hwf)
  · rw [hid]
    exact findDoc?_upsertDoc _ (docId t2 c2) _

/-- Witness for C10 at `("ab", "c")` and `("a", "bc")`. -/
theorem docId_concat_collision_witness :
    docId "ab" "c" = docId "a" "bc" ∧
    countId (indexDocumentSync embedEx (indexDocumentSync embedEx [] "ab" "c" [] "T0").1
        "a" "bc" [] "T1").1 (docId "ab" "c") = 1 :=
  ⟨(docId_concat_collision "ab" "c" "a" "bc" (by decide) embedEx [] (by decide)
      [] [] "T0" "T1").1,
   (docId_concat_collision "ab" "c" "a" "bc" (by decide) embedEx [] (by decide)
      [] [] "T0" "T1").2.1⟩

/-! ## Sanity checks of the embedding on known values -/

example : md5Hex "abc" = "900150983cd24fb0d6963f7d28e17f72" := by decide

example : calcConfidence [] = 0 := rfl

example : pyCapitalize "uSeR" = "User" := by decide

example : lastN 5 [1, 2, 3, 4, 5, 6, 7, 8] = [4, 5, 6, 7, 8] := by decide
